import Mathlib

/-!
Shallow embedding of `src/converter.py` (Revolut CSV → MT940 converter).

Python strings are modelled as Lean `String`/`List Char`; Python `Decimal`
values reachable from the converter are exact decimals, modelled as `ℚ`
(special values `NaN`/`Infinity` accepted by the `Decimal` constructor are
outside the exact-decimal model and treated as unparsable, and the signed
zero `Decimal ("-0")` is identified with `0`).  Python exceptions raised by
the converter are modelled with `Except ConvError`.
-/

namespace Mt940

set_option maxRecDepth 10000

/-- Python `str.isspace` on the ASCII whitespace characters that can occur in
the converter's inputs (`str.strip` with no argument strips these). -/
def isPySpace (c : Char) : Bool :=
  c = ' ' || c = '\t' || c = '\n' || c = '\r' || c = '\x0b' || c = '\x0c'

/-- Python `str.strip()` on a character list: drop leading and trailing
whitespace. -/
def pyStripList (l : List Char) : List Char :=
  ((l.dropWhile isPySpace).reverse.dropWhile isPySpace).reverse

/-- Python `str.strip()`. -/
def pyStrip (s : String) : String :=
  String.mk (pyStripList s.data)

/-- Python `str.upper()` (ASCII range; the converter's fields are ASCII). -/
def pyUpper (s : String) : String :=
  String.mk (s.data.map Char.toUpper)

/-- Python `str.replace (c, r)` for a single-character pattern and a
single-character replacement. -/
def replaceChar (c r : Char) (s : String) : String :=
  String.mk (s.data.map (fun x => if x = c then r else x))

/-- Python `str.replace (c, "")` for a single-character pattern: all
occurrences are removed. -/
def removeChar (c : Char) (s : String) : String :=
  String.mk (s.data.filter (fun x => x ≠ c))

/-- Split a character list on a separator character; like Python
`str.split (c)` this always returns at least one (possibly empty) piece. -/
def splitOnChar (c : Char) : List Char → List (List Char)
  | [] => [[]]
  | x :: xs =>
    match splitOnChar c xs with
    | [] => [[]]
    | y :: ys => if x = c then [] :: y :: ys else (x :: y) :: ys

/-- Python substring containment `pat in s` on character lists. -/
def hasSub (pat : List Char) : List Char → Bool
  | [] => pat.isEmpty
  | c :: rest => pat.isPrefixOf (c :: rest) || hasSub pat rest

/-- Concatenate a list of strings with a separator between the pieces,
modelling Python `sep.join (lines)`. -/
def joinWith (sep : String) : List String → String
  | [] => ""
  | [x] => x
  | x :: y :: ys => x ++ sep ++ joinWith sep (y :: ys)

/-- Numeric value of a list of decimal digit characters. -/
def digitsVal (l : List Char) : ℕ :=
  l.foldl (fun a c => 10 * a + (c.toNat - 48)) 0

/-- Python truthiness chain `a or b` for two optional strings: `None` and the
empty string are falsy. -/
def pyOrO (a b : Option String) : Option String :=
  match a with
  | some s => if s = "" then b else some s
  | none => b

/-- Python truthiness chain `a or d` ending in a plain string default. -/
def pyOr (a : Option String) (d : String) : String :=
  match a with
  | some s => if s = "" then d else s
  | none => d

/-- One parsed CSV row as produced by `csv.DictReader`: the header fields in
order paired with their values (`none` models Python `None`, the `restval`
filled in for missing trailing columns), plus the `restkey` overflow list for
surplus columns.  Stored reversed so that the first lookup hit models the
last `dict` write (duplicate header names overwrite in Python). -/
structure Record where
  fields : List (String × Option String)
  rest : List String
deriving DecidableEq, Repr

/-- Dict item lookup result: `none` when the key is absent. -/
def Record.lookupRaw (r : Record) (k : String) : Option (Option String) :=
  r.fields.lookup k

/-- Python `row.get (k)`: `none` both when the key is absent and when the
stored value is `None`. -/
def Record.get (r : Record) (k : String) : Option String :=
  (r.lookupRaw k).join

/-- Python `row.get (k, d)`: the stored value (possibly `None`) when the key
is present, else the default. -/
def Record.getD (r : Record) (k d : String) : Option String :=
  match r.lookupRaw k with
  | some v => v
  | none => some d

/-- Pair header names with data values by position, filling missing trailing
values with `none` (the `DictReader` `restval`). -/
def pairFields : List String → List String → List (String × Option String)
  | [], _ => []
  | h :: t, [] => (h, none) :: pairFields t []
  | h :: t, v :: vs => (h, some v) :: pairFields t vs

/-- Build one `csv.DictReader` row from the header names and the raw values
of a data line: values are matched to header names by position, missing
trailing values become `None`, surplus values go to the rest list.  The field
list is reversed so that lookup finds the last duplicate, as `dict` does. -/
def mkRecord (hs vs : List String) : Record :=
  ⟨(pairFields hs vs).reverse, vs.drop hs.length⟩

/-- Strip one trailing carriage return from a line, as the CSV layer does for
`\r\n`-terminated input. -/
def stripCR (l : List Char) : List Char :=
  match l.reverse with
  | '\r' :: rest => rest.reverse
  | _ => l

/-- Lines of the raw CSV text: split on newline, strip a trailing carriage
return, and drop blank lines (`csv.DictReader` skips blank rows).  Field
quoting is not modelled: the converter's inputs use unquoted fields. -/
def csvLines (content : String) : List (List Char) :=
  ((splitOnChar '\n' content.data).map stripCR).filter (fun l => l ≠ [])

/-- Model of `csv.DictReader (io.StringIO (csv_content))` followed by
`list (reader)` (converter.py lines 23-24): the first line provides the
header names, every later line one record. -/
def dictRows (content : String) : List Record :=
  match csvLines content with
  | [] => []
  | header :: dataLines =>
    let hs := (splitOnChar ',' header).map String.mk
    dataLines.map (fun l => mkRecord hs ((splitOnChar ',' l).map String.mk))

/-- Gregorian leap-year test, as `calendar.isleap`. -/
def isLeap (y : ℕ) : Bool :=
  y % 4 = 0 && (y % 100 ≠ 0 || y % 400 = 0)

/-- Days in a month, as `calendar.monthrange (y, m) [1]` for `1 ≤ m ≤ 12`. -/
def daysInMonth (y m : ℕ) : ℕ :=
  if m = 2 then (if isLeap y then 29 else 28)
  else if m = 4 || m = 6 || m = 9 || m = 11 then 30
  else 31

/-- Model of `datetime.strptime (s, "%Y-%m-%d")`: three dash-separated digit
groups (year up to 4 digits, month and day up to 2), validated as a calendar
date in `datetime`'s year range. -/
def parseDate (s : String) : Option (ℕ × ℕ × ℕ) :=
  match splitOnChar '-' s.data with
  | [ys, ms, ds] =>
    if ys ≠ [] ∧ ys.all Char.isDigit ∧ ys.length ≤ 4 ∧
       ms ≠ [] ∧ ms.all Char.isDigit ∧ ms.length ≤ 2 ∧
       ds ≠ [] ∧ ds.all Char.isDigit ∧ ds.length ≤ 2 then
      let y := digitsVal ys
      let m := digitsVal ms
      let d := digitsVal ds
      if 1 ≤ y ∧ 1 ≤ m ∧ m ≤ 12 ∧ 1 ≤ d ∧ d ≤ daysInMonth y m then
        some (y, m, d)
      else none
    else none
  | _ => none

/-- Zero-padded two-digit decimal rendering, as `strftime`'s `%m`/`%d`/`%y`
fields (arguments here are below 100). -/
def natPad2 (n : ℕ) : String :=
  if n < 10 then ("0") ++ Nat.repr n else Nat.repr n

/-- Render a parsed date as `strftime ("%y%m%d")`. -/
def fmtParts_yyMMdd (y m d : ℕ) : String :=
  natPad2 (y % 100) ++ natPad2 m ++ natPad2 d

/-- Render a parsed date as `strftime ("%m%d")`. -/
def fmtParts_MMDD (m d : ℕ) : String :=
  natPad2 m ++ natPad2 d

/-- Errors raised by the converter, named after the spec's error kinds.
`keyError`/`typeError` model the Python `KeyError`/`TypeError` raised by a
missing column or a `None` date value; there is no malformed-row error
because the code never raises one. -/
inductive ConvError where
  | emptyInputError
  | keyError
  | typeError
  | dateParseError
deriving DecidableEq, Repr

/-- Model of `fmt_yyMMdd` (converter.py lines 51-52): `strptime` then
`strftime ("%y%m%d")`; a malformed date raises. -/
def fmt_yyMMdd (s : String) : Except ConvError String :=
  match parseDate s with
  | some (y, m, d) => .ok (fmtParts_yyMMdd y m d)
  | none => .error .dateParseError

/-- Model of `fmt_MMDD` (converter.py lines 53-54). -/
def fmt_MMDD (s : String) : Except ConvError String :=
  match parseDate s with
  | some (_, m, d) => .ok (fmtParts_MMDD m d)
  | none => .error .dateParseError

/-- Python item access `row [k]`: a missing key raises `KeyError`, and a
`None` value fed to `strptime` raises `TypeError` (both fatal); the converter
only item-accesses the opening date field. -/
def getItem (r : Record) (k : String) : Except ConvError String :=
  match r.lookupRaw k with
  | none => .error .keyError
  | some none => .error .typeError
  | some (some v) => .ok v

/-- Exact value of a decimal literal, as accepted by Python
`Decimal (s)`: optional surrounding whitespace, optional sign, digits with at
most one point (at least one digit overall), optional decimal exponent. -/
def parseDecimalString (s : String) : Option ℚ :=
  let l := pyStripList s.data
  let (sign, l) : ℚ × List Char :=
    match l with
    | '-' :: rest => (-1, rest)
    | '+' :: rest => (1, rest)
    | _ => (1, l)
  let (mant, expPart) : List Char × Option (List Char) :=
    match splitOnChar 'e' (l.map (fun c => if c = 'E' then 'e' else c)) with
    | [m] => (m, none)
    | [m, e] => (m, some e)
    | _ => (l, some [])
  let expVal : Option ℤ :=
    match expPart with
    | none => some 0
    | some e =>
      match e with
      | '-' :: ds => if ds ≠ [] ∧ ds.all Char.isDigit then some (-(digitsVal ds : ℤ)) else none
      | '+' :: ds => if ds ≠ [] ∧ ds.all Char.isDigit then some (digitsVal ds : ℤ) else none
      | ds => if ds ≠ [] ∧ ds.all Char.isDigit then some (digitsVal ds : ℤ) else none
  match expVal with
  | none => none
  | some ex =>
    match splitOnChar '.' mant with
    | [ip] =>
      if ip ≠ [] ∧ ip.all Char.isDigit then
        some (sign * (digitsVal ip : ℚ) * (10 : ℚ) ^ ex)
      else none
    | [ip, fp] =>
      if (ip ≠ [] ∨ fp ≠ []) ∧ ip.all Char.isDigit ∧ fp.all Char.isDigit then
        some (sign * ((digitsVal ip : ℚ) + (digitsVal fp : ℚ) / (10 : ℚ) ^ fp.length) *
          (10 : ℚ) ^ ex)
      else none
    | _ => none

/-- Model of `parse_decimal` (converter.py lines 36-42): `None` and the empty
string give `0`, commas are normalized to points, an unparsable string gives
`0`. -/
def parse_decimal (v : Option String) : ℚ :=
  match v with
  | none => 0
  | some s =>
    if s = "" then 0
    else
      match parseDecimalString (replaceChar ',' '.' s) with
      | some q => q
      | none => 0

/-- Round a rational to the nearest integer, ties to the even neighbour: the
rounding of `Decimal.quantize` under the default `ROUND_HALF_EVEN` context. -/
def roundHalfEven (q : ℚ) : ℤ :=
  if q - (⌊q⌋ : ℚ) < 1 / 2 then ⌊q⌋
  else if 1 / 2 < q - (⌊q⌋ : ℚ) then ⌊q⌋ + 1
  else if Even ⌊q⌋ then ⌊q⌋ else ⌊q⌋ + 1

/-- Model of `_fmt_amount` (converter.py lines 7-11): quantize to two
fractional digits (banker's rounding) and render with a comma separator.  The
sign is taken from the input value, as `Decimal.quantize` preserves the sign
even when the rounded magnitude is zero. -/
def fmt_amount (d : ℚ) : String :=
  let n := roundHalfEven (d * 100)
  let m := n.natAbs
  (if d < 0 then ("-") else ("")) ++
    Nat.repr (m / 100) ++ "," ++
    String.mk [Nat.digitChar (m / 10 % 10), Nat.digitChar (m % 10)]

/-- Whitespace normalization applied by `_split_text_chunks` before slicing:
carriage returns and newlines become spaces, then surrounding whitespace is
stripped. -/
def normalizeText (s : String) : String :=
  pyStrip (replaceChar '\n' ' ' (replaceChar '\r' ' ' s))

/-- Fuel-driven fixed-width slicing of a character list (the fuel is the list
length, enough for any positive width). -/
def chunksAux (n : ℕ) : ℕ → List Char → List (List Char)
  | 0, _ => []
  | _, [] => []
  | fuel + 1, l => l.take n :: chunksAux n fuel (l.drop n)

/-- Model of `_split_text_chunks` (converter.py lines 13-15): normalize
whitespace, then cut into slices of `chunk_len` characters; empty text gives
no chunks. -/
def split_text_chunks (text : String) (chunk_len : ℕ) : List String :=
  let t := normalizeText text
  if t.data = [] then []
  else (chunksAux chunk_len t.data.length t.data).map String.mk

/-- Sequential effectful map over a list in the `Except` monad, modelling the
converter's per-row loop: the first raised error aborts the whole run. -/
def exceptMapList (f : α → Except ConvError β) : List α → Except ConvError (List β)
  | [] => .ok []
  | a :: as => do
    let b ← f a
    let bs ← exceptMapList f as
    .ok (b :: bs)

/-- Effective completion date string of a row (converter.py lines 78-81):
the completion date, else the start date, else the opening row's date. -/
def txDateRaw (openingRaw : String) (tx : Record) : String :=
  pyOr (pyOrO (tx.get ("Date completed (UTC)")) (tx.get ("Date started (UTC)"))) openingRaw

/-- Transaction identifier (converter.py line 86): hyphens removed, then
stripped. -/
def txId (tx : Record) : String :=
  pyStrip (removeChar '-' ((tx.get ("ID")).getD ("")))

/-- Resolved transaction amount (converter.py line 89): the `Amount` field,
else `Orig amount`, else zero. -/
def txAmount (tx : Record) : ℚ :=
  parse_decimal (some (pyOr (pyOrO (tx.get ("Amount")) (tx.get ("Orig amount"))) ("0")))

/-- Operation code (converter.py lines 96-100): `49` when the upper-cased
type contains `FEE`, else `119`. -/
def txCode (tx : Record) : String :=
  if hasSub ("FEE".data) (pyUpper ((tx.get ("Type")).getD (""))).data then ("49") else ("119")

/-- Stripped reference field (converter.py line 112). -/
def txReference (tx : Record) : String :=
  pyStrip ((tx.get ("Reference")).getD (""))

/-- Stripped description field (converter.py line 117). -/
def txDescription (tx : Record) : String :=
  pyStrip ((tx.get ("Description")).getD (""))

/-- Stripped beneficiary IBAN field (converter.py line 134). -/
def txBen (tx : Record) : String :=
  pyStrip ((tx.get ("Beneficiary IBAN")).getD (""))

/-- Currency symbol used in the `~60`/`~63` trailer sub-lines (converter.py
line 140). -/
def symbolOf (currency : String) : String :=
  if currency = "EUR" then ("€") else currency

/-- Description sub-lines `~32`/`~33`/`~38` (converter.py lines 117-131). -/
def descLines (tx : Record) : List String :=
  match split_text_chunks (txDescription tx) 35 with
  | [] => []
  | [c1] => ["~32" ++ c1]
  | [c1, c2] => ["~32" ++ c1, "~33" ++ c2]
  | c1 :: c2 :: rest => ["~32" ++ c1, "~33" ++ c2, "~38" ++ joinWith ("") rest]

/-- Beneficiary sub-line (converter.py lines 133-137): emitted only for a
non-empty stripped value, with spaces removed. -/
def benLines (tx : Record) : List String :=
  if txBen tx ≠ "" then ["~38" ++ removeChar ' ' (txBen tx)] else []

/-- Lines of one transaction block (converter.py lines 76-142, loop body). -/
def txLines (openingRaw currency : String) (tx : Record) : Except ConvError (List String) := do
  let dc := txDateRaw openingRaw tx
  let val_date ← fmt_yyMMdd dc
  let entry_md ← fmt_MMDD dc
  let direction := if txAmount tx < 0 then ("D") else ("C")
  let amount_str := fmt_amount |txAmount tx|
  let code_num := txCode tx
  .ok ([":61:" ++ val_date ++ entry_md ++ direction ++ amount_str ++ "N" ++ code_num ++
          "NONREF//" ++ txId tx,
        code_num ++ " 0",
        ":86:020~00" ++ code_num] ++
       (if txReference tx ≠ "" then ["~20" ++ txReference tx] else []) ++
       descLines tx ++
       benLines tx ++
       ["~60" ++ symbolOf currency, "~63" ++ symbolOf currency])

/-- Statement currency (converter.py line 33): the first row's payment
currency, else the last row's, else `EUR`; stripped then upper-cased. -/
def statementCurrency (firstRow lastRow : Record) : String :=
  pyUpper (pyStrip (pyOr (pyOrO (firstRow.get ("Payment currency"))
    (lastRow.get ("Payment currency"))) ("EUR")))

/-- Available-funds date (converter.py lines 62-66): the opening date moved
to the last day of its month, rendered `%y%m%d`. -/
def availableDate (openingRaw : String) : Except ConvError String :=
  match parseDate openingRaw with
  | some (y, m, _) => .ok (fmtParts_yyMMdd y m (daysInMonth y m))
  | none => .error .dateParseError

/-- Model of the statement assembly in `revolut_to_mt940` (converter.py
lines 26-149), over already-parsed rows: reject empty input, derive the
statement context, emit header lines, one block per row iterating the rows
in reverse, then footer lines, and join with newlines. -/
def assemble (rows : List Record) (iban : String) : Except ConvError String :=
  match rows with
  | [] => .error .emptyInputError
  | r0 :: rs => do
    let iban_norm := removeChar ' ' iban
    let first_row := (r0 :: rs).getLast (List.cons_ne_nil r0 rs)
    let currency := statementCurrency r0 first_row
    let openingRaw ← getItem first_row ("Date completed (UTC)")
    let opening_date ← fmt_yyMMdd openingRaw
    let opening_balance := parse_decimal (first_row.getD ("Balance") ("0"))
    let closingRaw ← getItem r0 ("Date completed (UTC)")
    let closing_date ← fmt_yyMMdd closingRaw
    let closing_balance := parse_decimal (r0.getD ("Balance") ("0"))
    let available_date ← availableDate openingRaw
    let txss ← exceptMapList (txLines openingRaw currency) (r0 :: rs).reverse
    .ok (joinWith ("\n")
      ([":20:MT940", ":25:/" ++ iban_norm, ":28C:1",
        ":60F:C" ++ opening_date ++ currency ++ fmt_amount opening_balance] ++
       txss.flatten ++
       [":62F:C" ++ closing_date ++ currency ++ fmt_amount closing_balance,
        ":64:C" ++ available_date ++ currency ++ fmt_amount closing_balance,
        "-"]))

/-- Model of `revolut_to_mt940` (converter.py lines 17-149): parse the CSV
text into rows, then assemble the statement. -/
def revolut_to_mt940 (csv_content iban : String) : Except ConvError String :=
  assemble (dictRows csv_content) iban

/-- Sample input: one well-formed transaction row. -/
def csvOne : String :=
  "Date completed (UTC),Amount,Balance,Payment currency,Type,ID\n2024-01-15,-12.50,987.50,EUR,CARD_PAYMENT,abc-123"

/-- Statement produced from `csvOne` with account identifier `X`. -/
def outOne : String :=
  ":20:MT940\n:25:/X\n:28C:1\n:60F:C240115EUR987,50\n:61:2401150115D12,50N119NONREF//abc123\n119 0\n:86:020~00119\n~60€\n~63€\n:62F:C240115EUR987,50\n:64:C240131EUR987,50\n-"

/-- Sample input whose data row has one more field than the header. -/
def csvExtra : String :=
  "Date completed (UTC),Amount,Balance,Payment currency,ID\n2024-01-15,-12.50,987.50,EUR,abc-123,SURPLUS"

/-- Statement produced from `csvExtra` with account identifier `X`. -/
def outExtra : String :=
  ":20:MT940\n:25:/X\n:28C:1\n:60F:C240115EUR987,50\n:61:2401150115D12,50N119NONREF//abc123\n119 0\n:86:020~00119\n~60€\n~63€\n:62F:C240115EUR987,50\n:64:C240131EUR987,50\n-"

/-- Sample input whose payment-currency field holds a single space. -/
def csvSp : String :=
  "Date completed (UTC),Amount,Balance,Payment currency,ID\n2024-01-15,12.34,987.50, ,abc"

/-- Statement produced from `csvSp` with account identifier `X`: the currency
slot of the balance lines is empty. -/
def outSp : String :=
  ":20:MT940\n:25:/X\n:28C:1\n:60F:C240115987,50\n:61:2401150115C12,34N119NONREF//abc\n119 0\n:86:020~00119\n~60\n~63\n:62F:C240115987,50\n:64:C240131987,50\n-"

/-- Statement produced from `csvOne` with account identifier `A B\tC`: the
tab character survives into the account line. -/
def outTab : String :=
  ":20:MT940\n:25:/AB\tC\n:28C:1\n:60F:C240115EUR987,50\n:61:2401150115D12,50N119NONREF//abc123\n119 0\n:86:020~00119\n~60€\n~63€\n:62F:C240115EUR987,50\n:64:C240131EUR987,50\n-"

/-- Sample input with three rows in reverse-chronological order (the spec's
ordering scenario), a fee row, a long description and a beneficiary IBAN. -/
def csvThree : String :=
  "Date completed (UTC),Amount,Balance,Payment currency,Type,ID,Description,Beneficiary IBAN\n2024-01-20,5.00,100.00,EUR,TRANSFER,id-3,,\n2024-01-10,-2.50,95.00,EUR,CARD_FEE,id-2,Coffee shop purchase at the corner of Main street and Fifth avenue downtown,LT99 8877\n2024-01-01,10.00,97.50,EUR,TOPUP,id-1,,"

/-- Statement produced from `csvThree` with account identifier `LT00`. -/
def outThree : String :=
  ":20:MT940\n:25:/LT00\n:28C:1\n:60F:C240101EUR97,50\n:61:2401010101C10,00N119NONREF//id1\n119 0\n:86:020~00119\n~60€\n~63€\n:61:2401100110D2,50N49NONREF//id2\n49 0\n:86:020~0049\n~32Coffee shop purchase at the corner \n~33of Main street and Fifth avenue dow\n~38ntown\n~38LT998877\n~60€\n~63€\n:61:2401200120C5,00N119NONREF//id3\n119 0\n:86:020~00119\n~60€\n~63€\n:62F:C240120EUR100,00\n:64:C240131EUR100,00\n-"

/-- Sample record for the direction-letter law: a debit card payment. -/
def recDebit : Record :=
  mkRecord ["Amount", "ID"] ["-12.50", "ab-c"]

/-- Transaction block produced from `recDebit`. -/
def outDebit : List String :=
  [":61:2401150115D12,50N119NONREF//abc", "119 0", ":86:020~00119", "~60€", "~63€"]

/-- Sample record with an 80-character description and a beneficiary IBAN. -/
def recLong : Record :=
  mkRecord ["Date completed (UTC)", "Description", "Beneficiary IBAN"]
    ["2024-01-10", String.mk (List.replicate 80 'x'), "LT99 88"]

/-- Transaction block produced from `recLong`: the third description chunk
and the beneficiary identifier share the `~38` tag. -/
def outLong : List String :=
  [":61:2401100110C0,00N119NONREF//", "119 0", ":86:020~00119",
   "~32xxxxxxxxxxxxxxxxxxxxxxxxxxxxxxxxxxx",
   "~33xxxxxxxxxxxxxxxxxxxxxxxxxxxxxxxxxxx", "~38xxxxxxxxxx", "~38LT9988",
   "~60€", "~63€"]

/-- Header of the two-record ordering sample. -/
def hsW : List String :=
  ["Date completed (UTC)", "Amount", "Balance", "Payment currency", "ID"]

/-- First (chronologically most recent) record of the ordering sample. -/
def recW1 : Record :=
  mkRecord hsW ["2024-01-20", "5.00", "100.00", "EUR", "id-3"]

/-- Last (chronologically earliest) record of the ordering sample. -/
def recW2 : Record :=
  mkRecord hsW ["2024-01-01", "10.00", "97.50", "EUR", "id-1"]

/-- Statement assembled from `[recW1, recW2]` with account identifier `X`:
the opening balance comes from `recW2`, the closing balance from `recW1`,
and the `recW2` block is emitted first. -/
def outW : String :=
  ":20:MT940\n:25:/X\n:28C:1\n:60F:C240101EUR97,50\n:61:2401010101C10,00N119NONREF//id1\n119 0\n:86:020~00119\n~60€\n~63€\n:61:2401200120C5,00N119NONREF//id3\n119 0\n:86:020~00119\n~60€\n~63€\n:62F:C240120EUR100,00\n:64:C240131EUR100,00\n-"

/-- Sample input with no payment-currency column at all. -/
def csvDef : String :=
  "Date completed (UTC),Amount,Balance,ID\n2024-01-15,1.00,2.00,a"

/-- Statement produced from `csvDef` with account identifier `X`: the
currency falls back to the default `EUR`. -/
def outDef : String :=
  ":20:MT940\n:25:/X\n:28C:1\n:60F:C240115EUR2,00\n:61:2401150115C1,00N119NONREF//a\n119 0\n:86:020~00119\n~60€\n~63€\n:62F:C240115EUR2,00\n:64:C240131EUR2,00\n-"

/-! ## Helper lemmas -/

lemma splitOnChar_of_not_mem (c : Char) (l : List Char) (h : c ∉ l) :
    splitOnChar c l = [l] := by
  induction l with
  | nil => rfl
  | cons x xs ih =>
    have hx : x ≠ c := fun he => h (he ▸ List.mem_cons_self _ _)
    have h2 : c ∉ xs := fun hm => h (List.mem_cons_of_mem _ hm)
    simp [splitOnChar, ih h2, hx]

lemma splitOnChar_append_sep (c : Char) (l : List Char) (h : c ∉ l) :
    splitOnChar c (l ++ [c]) = [l, []] := by
  induction l with
  | nil => simp [splitOnChar]
  | cons x xs ih =>
    have hx : x ≠ c := fun he => h (he ▸ List.mem_cons_self _ _)
    have h2 : c ∉ xs := fun hm => h (List.mem_cons_of_mem _ hm)
    simp [splitOnChar, ih h2, hx]

lemma stripCR_nil : stripCR [] = [] := rfl

lemma dictRows_header_only (hdr : String) (h : '\n' ∉ hdr.data) :
    dictRows hdr = [] := by
  unfold dictRows csvLines
  rw [splitOnChar_of_not_mem _ _ h]
  cases hs : stripCR hdr.data with
  | nil => simp [hs]
  | cons a t => simp [hs]

lemma dictRows_header_newline (hdr : String) (h : '\n' ∉ hdr.data) :
    dictRows (hdr ++ "\n") = [] := by
  unfold dictRows csvLines
  have hd : (hdr ++ "\n").data = hdr.data ++ ['\n'] := String.data_append _ _
  rw [hd, splitOnChar_append_sep _ _ h]
  cases hs : stripCR hdr.data with
  | nil => simp [hs, stripCR_nil]
  | cons a t => simp [hs, stripCR_nil]

/-! ## C2: empty input and header-only input are rejected -/

/-- C2: `convert` applied to the empty string, to a sole header line, or to a
header line followed by a newline and no data rows, raises the empty-input
error for every account identifier, producing no statement text. -/
theorem c2_empty_input_rejected (iban hdr : String) (h : '\n' ∉ hdr.data) :
    revolut_to_mt940 ("") iban = .error .emptyInputError ∧
    revolut_to_mt940 hdr iban = .error .emptyInputError ∧
    revolut_to_mt940 (hdr ++ "\n") iban = .error .emptyInputError := by
  refine ⟨rfl, ?_, ?_⟩
  · rw [revolut_to_mt940, dictRows_header_only hdr h]; rfl
  · rw [revolut_to_mt940, dictRows_header_newline hdr h]; rfl

/-- C2 witness: the law at the account identifier `ACC` and the header row
`a,b`. -/
theorem c2_witness :
    ('\n' ∉ ("a,b").data) ∧
    (revolut_to_mt940 ("") ("ACC") = .error .emptyInputError ∧
     revolut_to_mt940 ("a,b") ("ACC") = .error .emptyInputError ∧
     revolut_to_mt940 ("a,b" ++ "\n") ("ACC") = .error .emptyInputError) :=
  ⟨by decide, c2_empty_input_rejected ("ACC") ("a,b") (by decide)⟩

/-! ## C4: rows with surplus columns are tolerated, not rejected -/

lemma pairFields_append (hs vs ex : List String) (h : vs.length = hs.length) :
    pairFields hs (vs ++ ex) = pairFields hs vs := by
  induction hs generalizing vs with
  | nil => rfl
  | cons a t ih =>
    cases vs with
    | nil => simp at h
    | cons v vt =>
      simp only [List.cons_append, pairFields, List.append_eq]
      rw [ih vt (by simpa using h)]

/-- C4 counterexample: a data row with one more field than the header does
not raise any error: the conversion succeeds and the surplus value is
collected under the rest key. -/
theorem c4_counterexample :
    revolut_to_mt940 csvExtra ("X") = .ok outExtra ∧
    (dictRows csvExtra).map Record.rest = [["SURPLUS"]] :=
  ⟨by with_unfolding_all rfl, by with_unfolding_all rfl⟩

/-- C4 amended: a data row with more fields than the header maps every header
name to the value at its own position, unchanged by the surplus values, which
are collected separately in the record's rest list; no error is raised and no
field is shifted or dropped. -/
theorem c4_extra_columns_tolerated (hs vs ex : List String) (k : String)
    (h : vs.length = hs.length) :
    (mkRecord hs (vs ++ ex)).get k = (mkRecord hs vs).get k ∧
    (mkRecord hs (vs ++ ex)).rest = ex := by
  constructor
  · unfold Record.get Record.lookupRaw mkRecord
    rw [pairFields_append hs vs ex h]
  · unfold mkRecord
    simp only
    rw [← h, List.drop_left]

/-- C4 witness: the amended law at a concrete two-column header. -/
theorem c4_witness :
    (["2024-01-15", "-12.50"] : List String).length =
      (["Date completed (UTC)", "Amount"] : List String).length ∧
    ((mkRecord ["Date completed (UTC)", "Amount"]
        (["2024-01-15", "-12.50"] ++ ["SURPLUS"])).get ("Amount") =
      (mkRecord ["Date completed (UTC)", "Amount"]
        ["2024-01-15", "-12.50"]).get ("Amount") ∧
     (mkRecord ["Date completed (UTC)", "Amount"]
        (["2024-01-15", "-12.50"] ++ ["SURPLUS"])).rest = ["SURPLUS"]) :=
  ⟨by decide,
   c4_extra_columns_tolerated ["Date completed (UTC)", "Amount"]
     ["2024-01-15", "-12.50"] ["SURPLUS"] ("Amount") (by decide)⟩

/-! ## C3: amount formatting rounds half-to-even, not half-up -/

lemma roundHalfEven_spec (q : ℚ) :
    |q - (roundHalfEven q : ℚ)| ≤ 1 / 2 ∧
    (|q - (roundHalfEven q : ℚ)| = 1 / 2 → Even (roundHalfEven q)) := by
  have h0 : (0 : ℚ) ≤ q - (⌊q⌋ : ℚ) := by
    have := Int.floor_le q; linarith
  have h1 : q - (⌊q⌋ : ℚ) < 1 := by
    have := Int.lt_floor_add_one q; linarith
  unfold roundHalfEven
  split_ifs with ha hb hc
  · constructor
    · rw [abs_of_nonneg h0]; linarith
    · intro he; rw [abs_of_nonneg h0] at he; exact absurd he (by linarith)
  · push_cast
    constructor
    · rw [abs_of_nonpos (by linarith)]; linarith
    · intro he; rw [abs_of_nonpos (by linarith)] at he
      exact absurd he (by intro h2; apply absurd hb; linarith)
  · have he : q - (⌊q⌋ : ℚ) = 1 / 2 := by linarith
    exact ⟨by rw [abs_of_nonneg h0]; linarith, fun _ => hc⟩
  · have he : q - (⌊q⌋ : ℚ) = 1 / 2 := by linarith
    push_cast
    constructor
    · rw [abs_of_nonpos (by linarith)]; linarith
    · intro _; exact Int.even_add_one.mpr hc

lemma digitChar_isDigit (n : ℕ) (h : n < 10) : (Nat.digitChar n).isDigit = true := by
  interval_cases n <;> rfl

/-- C3 counterexample: on the spec's own half-way example `0.125` the code
rounds to the even hundredth `0,12`, not up to `0,13`. -/
theorem c3_counterexample :
    fmt_amount (125 / 1000) = "0,12" ∧ fmt_amount (125 / 1000) ≠ "0,13" := by
  with_unfolding_all decide

/-- C3 amended: `formatAmount` rounds its argument to exactly two fractional
digits using round-half-to-even (bankers' rounding, the `Decimal.quantize`
default: a tie such as `0.125` goes to the even hundredth `0,12`), and
renders the result with a comma as the fractional separator followed by
exactly two digit characters. -/
theorem c3_half_even_two_digits (d : ℚ) :
    ∃ n : ℤ,
      |d * 100 - (n : ℚ)| ≤ 1 / 2 ∧
      (|d * 100 - (n : ℚ)| = 1 / 2 → Even n) ∧
      n.natAbs % 100 = (n.natAbs / 10 % 10) * 10 + n.natAbs % 10 ∧
      n.natAbs / 10 % 10 < 10 ∧ n.natAbs % 10 < 10 ∧
      (Nat.digitChar (n.natAbs / 10 % 10)).isDigit = true ∧
      (Nat.digitChar (n.natAbs % 10)).isDigit = true ∧
      fmt_amount d = (if d < 0 then ("-") else ("")) ++ Nat.repr (n.natAbs / 100) ++ "," ++
        String.mk [Nat.digitChar (n.natAbs / 10 % 10), Nat.digitChar (n.natAbs % 10)] :=
  ⟨roundHalfEven (d * 100), (roundHalfEven_spec _).1, (roundHalfEven_spec _).2,
   by omega, by omega, by omega,
   digitChar_isDigit _ (by omega), digitChar_isDigit _ (by omega), rfl⟩

/-- C3 witness: the amended law evaluated at `1234.5`, which renders as
`1234,50`. -/
theorem c3_witness :
    fmt_amount (24690 / 20) = "1234,50" ∧
    (∃ n : ℤ,
      |(24690 / 20 : ℚ) * 100 - (n : ℚ)| ≤ 1 / 2 ∧
      (|(24690 / 20 : ℚ) * 100 - (n : ℚ)| = 1 / 2 → Even n) ∧
      n.natAbs % 100 = (n.natAbs / 10 % 10) * 10 + n.natAbs % 10 ∧
      n.natAbs / 10 % 10 < 10 ∧ n.natAbs % 10 < 10 ∧
      (Nat.digitChar (n.natAbs / 10 % 10)).isDigit = true ∧
      (Nat.digitChar (n.natAbs % 10)).isDigit = true ∧
      fmt_amount (24690 / 20) =
        (if (24690 / 20 : ℚ) < 0 then ("-") else ("")) ++ Nat.repr (n.natAbs / 100) ++ "," ++
        String.mk [Nat.digitChar (n.natAbs / 10 % 10), Nat.digitChar (n.natAbs % 10)]) :=
  ⟨by with_unfolding_all decide, c3_half_even_two_digits (24690 / 20)⟩

/-! ## C5: chunking is exact -/

lemma chunksAux_nil (n fuel : ℕ) : chunksAux n fuel [] = [] := by
  cases fuel <;> rfl

lemma joinWith_empty_cons (x : String) (xs : List String) :
    joinWith ("") (x :: xs) = x ++ joinWith ("") xs := by
  cases xs with
  | nil => show x = x ++ ""; rw [String.append_empty]
  | cons y ys => show x ++ "" ++ joinWith ("") (y :: ys) = _; rw [String.append_empty]

lemma mk_append_mk (a b : List Char) : String.mk a ++ String.mk b = String.mk (a ++ b) := rfl

lemma chunksAux_join (n : ℕ) (hn : 1 ≤ n) :
    ∀ (fuel : ℕ) (l : List Char), l.length ≤ fuel →
      joinWith ("") ((chunksAux n fuel l).map String.mk) = String.mk l := by
  intro fuel
  induction fuel with
  | zero =>
    intro l hl
    have hnil : l = [] := List.length_eq_zero.mp (Nat.le_zero.mp hl)
    subst hnil; rfl
  | succ f ih =>
    intro l hl
    cases l with
    | nil => rfl
    | cons a t =>
      show joinWith ("")
        (((a :: t).take n :: chunksAux n f ((a :: t).drop n)).map String.mk) = _
      rw [List.map_cons, joinWith_empty_cons,
        ih ((a :: t).drop n) (by simp only [List.length_drop]; simp at hl ⊢; omega),
        mk_append_mk, List.take_append_drop]

lemma chunksAux_ne_nil (n fuel : ℕ) (l : List Char) (hf : 1 ≤ fuel) (hl : l ≠ []) :
    chunksAux n fuel l ≠ [] := by
  cases fuel with
  | zero => omega
  | succ f =>
    cases l with
    | nil => exact absurd rfl hl
    | cons a t => simp [chunksAux]

lemma chunksAux_dropLast (n : ℕ) (hn : 1 ≤ n) :
    ∀ (fuel : ℕ) (l : List Char), l.length ≤ fuel →
      ∀ c ∈ (chunksAux n fuel l).dropLast, c.length = n := by
  intro fuel
  induction fuel with
  | zero =>
    intro l hl c hc
    have hnil : l = [] := List.length_eq_zero.mp (Nat.le_zero.mp hl)
    subst hnil
    simp [chunksAux_nil] at hc
  | succ f ih =>
    intro l hl c hc
    cases l with
    | nil => simp [chunksAux_nil] at hc
    | cons a t =>
      have heq : chunksAux n (f + 1) (a :: t) =
          (a :: t).take n :: chunksAux n f ((a :: t).drop n) := rfl
      rw [heq] at hc
      by_cases hd : (a :: t).drop n = []
      · rw [hd, chunksAux_nil] at hc
        simp at hc
      · have hlen : n < (a :: t).length := by
          by_contra hcon
          exact hd (List.drop_eq_nil_of_le (by omega))
        have hf1 : 1 ≤ f := by
          have h2 : n < t.length + 1 := by simpa using hlen
          have h3 : t.length + 1 ≤ f + 1 := by simpa using hl
          omega
        have hne := chunksAux_ne_nil n f ((a :: t).drop n) hf1 hd
        rw [List.dropLast_cons_of_ne_nil hne] at hc
        rcases List.mem_cons.mp hc with h | h
        · subst h
          rw [List.length_take]
          exact Nat.min_eq_left (le_of_lt hlen)
        · exact ih ((a :: t).drop n)
            (by simp only [List.length_drop]; simp at hl ⊢; omega) c h


/-- C5: concatenating the chunks returned by `_split_text_chunks` at width 35
reproduces the whitespace-normalized input, every chunk except possibly the
last has length exactly 35, and the empty string yields no chunks. -/
theorem c5_chunking_exact (s : String) :
    joinWith ("") (split_text_chunks s 35) = normalizeText s ∧
    (∀ c ∈ (split_text_chunks s 35).dropLast, c.length = 35) ∧
    split_text_chunks ("") 35 = [] := by
  refine ⟨?_, ?_, rfl⟩
  · simp only [split_text_chunks]
    by_cases h : (normalizeText s).data = []
    · rw [if_pos h]
      show ("" : String) = normalizeText s
      exact (String.ext h).symm
    · rw [if_neg h, chunksAux_join 35 (by omega) _ _ (le_refl _)]
  · simp only [split_text_chunks]
    by_cases h : (normalizeText s).data = []
    · rw [if_pos h]
      intro c hc
      simp at hc
    · rw [if_neg h]
      intro c hc
      rw [← List.map_dropLast] at hc
      rcases List.mem_map.mp hc with ⟨cl, hcl, hrfl⟩
      subst hrfl
      show cl.length = 35
      exact chunksAux_dropLast 35 (by omega) _ _ (le_refl _) cl hcl

/-- C5 witness: the chunking law evaluated on an 80-character description
with embedded newlines. -/
theorem c5_witness :
    joinWith ("") (split_text_chunks ("ab\r\ncd  ") 35) = normalizeText ("ab\r\ncd  ") :=
  (c5_chunking_exact ("ab\r\ncd  ")).1

/-! ## C6: direction letter and absolute amount -/

lemma bind_ok_inv {α β : Type} {m : Except ConvError α} {f : α → Except ConvError β} {b : β}
    (h : m >>= f = .ok b) : ∃ a, m = .ok a ∧ f a = .ok b := by
  cases m with
  | error e => simp [Bind.bind, Except.bind] at h
  | ok a => exact ⟨a, rfl, by simpa [Bind.bind, Except.bind] using h⟩

lemma toDigitsCore_digit_or_acc (f : ℕ) :
    ∀ (n : ℕ) (acc : List Char), ∀ c ∈ Nat.toDigitsCore 10 f n acc,
      c ∈ acc ∨ c.isDigit = true := by
  induction f with
  | zero => intro n acc c hc; exact Or.inl hc
  | succ f ih =>
    intro n acc c hc
    simp only [Nat.toDigitsCore] at hc
    by_cases hz : n / 10 = 0
    · rw [if_pos hz] at hc
      rcases List.mem_cons.mp hc with h | h
      · right; subst h; exact digitChar_isDigit _ (Nat.mod_lt _ (by omega))
      · left; exact h
    · rw [if_neg hz] at hc
      rcases ih (n / 10) (Nat.digitChar (n % 10) :: acc) c hc with h | h
      · rcases List.mem_cons.mp h with h2 | h2
        · right; subst h2; exact digitChar_isDigit _ (Nat.mod_lt _ (by omega))
        · left; exact h2
      · right; exact h

lemma natRepr_digits (n : ℕ) : ∀ c ∈ (Nat.repr n).data, c.isDigit = true := by
  intro c hc
  have hd : (Nat.repr n).data = Nat.toDigitsCore 10 (n + 1) n [] := rfl
  rw [hd] at hc
  rcases toDigitsCore_digit_or_acc (n + 1) n [] c hc with h | h
  · simp at h
  · exact h

lemma fmt_amount_abs_no_minus (q : ℚ) (h : 0 ≤ q) : '-' ∉ (fmt_amount q).data := by
  intro hc
  have hdata : (fmt_amount q).data =
      ((Nat.repr ((roundHalfEven (q * 100)).natAbs / 100)).data ++ [',']) ++
        [Nat.digitChar ((roundHalfEven (q * 100)).natAbs / 10 % 10),
         Nat.digitChar ((roundHalfEven (q * 100)).natAbs % 10)] := by
    simp only [fmt_amount]
    rw [if_neg (not_lt.mpr h)]
    rfl
  rw [hdata] at hc
  rcases List.mem_append.mp hc with h1 | h1
  · rcases List.mem_append.mp h1 with h2 | h2
    · exact absurd (natRepr_digits _ '-' h2) (by decide)
    · simp at h2
  · rcases List.mem_cons.mp h1 with h2 | h2
    · have hd := digitChar_isDigit ((roundHalfEven (q * 100)).natAbs / 10 % 10) (by omega)
      rw [← h2] at hd
      exact absurd hd (by decide)
    · rcases List.mem_cons.mp h2 with h3 | h3
      · have hd := digitChar_isDigit ((roundHalfEven (q * 100)).natAbs % 10) (by omega)
        rw [← h3] at hd
        exact absurd hd (by decide)
      · simp at h3

/-- C6: in the transaction line of every emitted block the direction letter
is `D` exactly when the resolved amount is strictly negative (`C` otherwise),
and the rendered amount is the absolute value: non-negative, with no embedded
minus sign. -/
theorem c6_direction_law (openingRaw currency : String) (tx : Record)
    (ls : List String) (h : txLines openingRaw currency tx = .ok ls) :
    ∃ vd md dir rest,
      ls.head? = some (":61:" ++ vd ++ md ++ dir ++ fmt_amount |txAmount tx| ++ rest) ∧
      (dir = "D" ↔ txAmount tx < 0) ∧ (dir = "D" ∨ dir = "C") ∧
      0 ≤ |txAmount tx| ∧ '-' ∉ (fmt_amount |txAmount tx|).data := by
  simp only [txLines] at h
  obtain ⟨vd, h1, h⟩ := bind_ok_inv h
  obtain ⟨md, h2, h⟩ := bind_ok_inv h
  have hls : ls = [":61:" ++ vd ++ md ++ (if txAmount tx < 0 then ("D") else ("C")) ++
      fmt_amount |txAmount tx| ++ "N" ++ txCode tx ++ "NONREF//" ++ txId tx,
      txCode tx ++ " 0", ":86:020~00" ++ txCode tx] ++
      (if txReference tx ≠ "" then ["~20" ++ txReference tx] else []) ++
      descLines tx ++ benLines tx ++
      ["~60" ++ symbolOf currency, "~63" ++ symbolOf currency] := by
    simpa using h.symm
  refine ⟨vd, md, if txAmount tx < 0 then ("D") else ("C"),
    "N" ++ txCode tx ++ "NONREF//" ++ txId tx, ?_, ?_, ?_,
    abs_nonneg _, fmt_amount_abs_no_minus _ (abs_nonneg _)⟩
  · rw [hls]
    show some _ = some _
    exact congrArg some (String.ext (by
      simp [String.data_append, List.append_assoc]))
  · by_cases hlt : txAmount tx < 0
    · rw [if_pos hlt]; simp [hlt]
    · rw [if_neg hlt]
      constructor
      · intro he; exact absurd he (by decide)
      · intro he; exact absurd he hlt
  · by_cases hlt : txAmount tx < 0
    · rw [if_pos hlt]; left; rfl
    · rw [if_neg hlt]; right; rfl

/-- C6 witness: the law on the concrete debit row `recDebit`. -/
theorem c6_witness :
    txLines ("2024-01-15") ("EUR") recDebit = .ok outDebit ∧
    (∃ vd md dir rest,
      outDebit.head? =
        some (":61:" ++ vd ++ md ++ dir ++ fmt_amount |txAmount recDebit| ++ rest) ∧
      (dir = "D" ↔ txAmount recDebit < 0) ∧ (dir = "D" ∨ dir = "C") ∧
      0 ≤ |txAmount recDebit| ∧ '-' ∉ (fmt_amount |txAmount recDebit|).data) :=
  ⟨by with_unfolding_all rfl,
   c6_direction_law ("2024-01-15") ("EUR") recDebit outDebit
     (by with_unfolding_all rfl)⟩

/-! ## C1: opening from the last record, closing from the first, blocks in
reverse input order -/

lemma exceptMapList_ok_length {α β : Type} (f : α → Except ConvError β) :
    ∀ (l : List α) (bs : List β), exceptMapList f l = .ok bs → bs.length = l.length := by
  intro l
  induction l with
  | nil =>
    intro bs h
    have hb : bs = [] := by simpa [exceptMapList] using h.symm
    subst hb; rfl
  | cons a t ih =>
    intro bs h
    simp only [exceptMapList] at h
    obtain ⟨b, h1, h⟩ := bind_ok_inv h
    obtain ⟨ts, h2, h⟩ := bind_ok_inv h
    have hb : bs = b :: ts := by simpa using h.symm
    subst hb
    simp [ih ts h2]

lemma exceptMapList_ok_get {α β : Type} (f : α → Except ConvError β) :
    ∀ (l : List α) (bs : List β), exceptMapList f l = .ok bs →
      ∀ (i : ℕ) (hi : i < l.length) (hi2 : i < bs.length),
        f (l.get ⟨i, hi⟩) = .ok (bs.get ⟨i, hi2⟩) := by
  intro l
  induction l with
  | nil => intro bs h i hi hi2; simp at hi
  | cons a t ih =>
    intro bs h i hi hi2
    simp only [exceptMapList] at h
    obtain ⟨b, h1, h⟩ := bind_ok_inv h
    obtain ⟨ts, h2, h⟩ := bind_ok_inv h
    have hb : bs = b :: ts := by simpa using h.symm
    subst hb
    cases i with
    | zero => simpa using h1
    | succ j => exact ih ts h2 j (by simpa using hi) (by simpa using hi2)

lemma assemble_ok_inv (r0 : Record) (rs : List Record) (iban out : String)
    (h : assemble (r0 :: rs) iban = .ok out) :
    ∃ (openingRaw openingDate closingRaw closingDate availDate : String)
      (txss : List (List String)),
      getItem ((r0 :: rs).getLast (List.cons_ne_nil r0 rs))
        ("Date completed (UTC)") = .ok openingRaw ∧
      fmt_yyMMdd openingRaw = .ok openingDate ∧
      getItem r0 ("Date completed (UTC)") = .ok closingRaw ∧
      fmt_yyMMdd closingRaw = .ok closingDate ∧
      availableDate openingRaw = .ok availDate ∧
      exceptMapList
        (txLines openingRaw
          (statementCurrency r0 ((r0 :: rs).getLast (List.cons_ne_nil r0 rs))))
        (r0 :: rs).reverse = .ok txss ∧
      out = joinWith ("\n")
        ([":20:MT940", ":25:/" ++ removeChar ' ' iban, ":28C:1",
          ":60F:C" ++ openingDate ++
            statementCurrency r0 ((r0 :: rs).getLast (List.cons_ne_nil r0 rs)) ++
            fmt_amount (parse_decimal
              (((r0 :: rs).getLast (List.cons_ne_nil r0 rs)).getD ("Balance") ("0")))] ++
         txss.flatten ++
         [":62F:C" ++ closingDate ++
            statementCurrency r0 ((r0 :: rs).getLast (List.cons_ne_nil r0 rs)) ++
            fmt_amount (parse_decimal (r0.getD ("Balance") ("0"))),
          ":64:C" ++ availDate ++
            statementCurrency r0 ((r0 :: rs).getLast (List.cons_ne_nil r0 rs)) ++
            fmt_amount (parse_decimal (r0.getD ("Balance") ("0"))),
          "-"]) := by
  simp only [assemble] at h
  obtain ⟨openingRaw, h1, h⟩ := bind_ok_inv h
  obtain ⟨openingDate, h2, h⟩ := bind_ok_inv h
  obtain ⟨closingRaw, h3, h⟩ := bind_ok_inv h
  obtain ⟨closingDate, h4, h⟩ := bind_ok_inv h
  obtain ⟨availDate, h5, h⟩ := bind_ok_inv h
  obtain ⟨txss, h6, h⟩ := bind_ok_inv h
  exact ⟨openingRaw, openingDate, closingRaw, closingDate, availDate, txss,
    h1, h2, h3, h4, h5, h6, by simpa using h.symm⟩

/-- C1: for a non-empty record sequence the assembler takes the opening date
and opening balance from the last record of the input order, the closing
date and closing balance from the first record, and emits exactly one
transaction block per record, the blocks appearing in the output in reverse
of the input order (chronologically ascending under the assumed
reverse-chronological input). -/
theorem c1_reverse_order_assembly (r0 : Record) (rs : List Record)
    (iban out : String) (h : assemble (r0 :: rs) iban = .ok out) :
    ∃ (openingRaw openingDate closingRaw closingDate availDate : String)
      (txss : List (List String)),
      getItem ((r0 :: rs).getLast (List.cons_ne_nil r0 rs))
        ("Date completed (UTC)") = .ok openingRaw ∧
      fmt_yyMMdd openingRaw = .ok openingDate ∧
      getItem r0 ("Date completed (UTC)") = .ok closingRaw ∧
      fmt_yyMMdd closingRaw = .ok closingDate ∧
      txss.length = (r0 :: rs).length ∧
      (∀ (i : ℕ) (hi : i < (r0 :: rs).reverse.length) (hi2 : i < txss.length),
        txLines openingRaw
          (statementCurrency r0 ((r0 :: rs).getLast (List.cons_ne_nil r0 rs)))
          ((r0 :: rs).reverse.get ⟨i, hi⟩) = .ok (txss.get ⟨i, hi2⟩)) ∧
      out = joinWith ("\n")
        ([":20:MT940", ":25:/" ++ removeChar ' ' iban, ":28C:1",
          ":60F:C" ++ openingDate ++
            statementCurrency r0 ((r0 :: rs).getLast (List.cons_ne_nil r0 rs)) ++
            fmt_amount (parse_decimal
              (((r0 :: rs).getLast (List.cons_ne_nil r0 rs)).getD ("Balance") ("0")))] ++
         txss.flatten ++
         [":62F:C" ++ closingDate ++
            statementCurrency r0 ((r0 :: rs).getLast (List.cons_ne_nil r0 rs)) ++
            fmt_amount (parse_decimal (r0.getD ("Balance") ("0"))),
          ":64:C" ++ availDate ++
            statementCurrency r0 ((r0 :: rs).getLast (List.cons_ne_nil r0 rs)) ++
            fmt_amount (parse_decimal (r0.getD ("Balance") ("0"))),
          "-"]) := by
  obtain ⟨oR, oD, cR, cD, aD, txss, h1, h2, h3, h4, h5, h6, hout⟩ :=
    assemble_ok_inv r0 rs iban out h
  have hlen : txss.length = (r0 :: rs).length := by
    rw [exceptMapList_ok_length _ _ _ h6, List.length_reverse]
  exact ⟨oR, oD, cR, cD, aD, txss, h1, h2, h3, h4, hlen,
    fun i hi hi2 => exceptMapList_ok_get _ _ _ h6 i hi hi2, hout⟩

/-- C1 witness: the ordering law on the two-record sample, where the opening
balance `97,50` comes from the last record `recW2` and the closing balance
`100,00` from the first record `recW1`. -/
theorem c1_witness :
    assemble [recW1, recW2] ("X") = .ok outW ∧
    (∃ (openingRaw openingDate closingRaw closingDate availDate : String)
      (txss : List (List String)),
      getItem (([recW1, recW2]).getLast (List.cons_ne_nil recW1 [recW2]))
        ("Date completed (UTC)") = .ok openingRaw ∧
      fmt_yyMMdd openingRaw = .ok openingDate ∧
      getItem recW1 ("Date completed (UTC)") = .ok closingRaw ∧
      fmt_yyMMdd closingRaw = .ok closingDate ∧
      txss.length = ([recW1, recW2] : List Record).length ∧
      (∀ (i : ℕ) (hi : i < ([recW1, recW2] : List Record).reverse.length)
        (hi2 : i < txss.length),
        txLines openingRaw
          (statementCurrency recW1
            (([recW1, recW2]).getLast (List.cons_ne_nil recW1 [recW2])))
          (([recW1, recW2] : List Record).reverse.get ⟨i, hi⟩) =
            .ok (txss.get ⟨i, hi2⟩)) ∧
      outW = joinWith ("\n")
        ([":20:MT940", ":25:/" ++ removeChar ' ' ("X"), ":28C:1",
          ":60F:C" ++ openingDate ++
            statementCurrency recW1
              (([recW1, recW2]).getLast (List.cons_ne_nil recW1 [recW2])) ++
            fmt_amount (parse_decimal
              ((([recW1, recW2]).getLast
                (List.cons_ne_nil recW1 [recW2])).getD ("Balance") ("0")))] ++
         txss.flatten ++
         [":62F:C" ++ closingDate ++
            statementCurrency recW1
              (([recW1, recW2]).getLast (List.cons_ne_nil recW1 [recW2])) ++
            fmt_amount (parse_decimal (recW1.getD ("Balance") ("0"))),
          ":64:C" ++ availDate ++
            statementCurrency recW1
              (([recW1, recW2]).getLast (List.cons_ne_nil recW1 [recW2])) ++
            fmt_amount (parse_decimal (recW1.getD ("Balance") ("0"))),
          "-"])) :=
  ⟨by with_unfolding_all rfl,
   c1_reverse_order_assembly recW1 [recW2] ("X") outW
     (by with_unfolding_all rfl)⟩

/-! ## C7: the output ends with the terminating marker and no trailing
newline -/

lemma joinWith_cons_of_ne_nil (sep x : String) (l : List String) (h : l ≠ []) :
    joinWith sep (x :: l) = x ++ sep ++ joinWith sep l := by
  cases l with
  | nil => exact absurd rfl h
  | cons y ys => rfl

lemma joinWith_append_dash (xs : List String) :
    (joinWith ("\n") (xs ++ ["-"])).data.getLast? = some '-' := by
  induction xs with
  | nil => rfl
  | cons x xs ih =>
    rw [List.cons_append, joinWith_cons_of_ne_nil _ _ _ (by simp),
      String.data_append, List.getLast?_append, ih]
    rfl

lemma getLast?_three (A F : List String) (x y z : String) :
    (A ++ F ++ [x, y, z]).getLast? = some z := by
  rw [show A ++ F ++ [x, y, z] = (A ++ F ++ [x, y]) ++ [z] by simp]
  exact List.getLast?_concat _

lemma joinWith_three_dash (A F : List String) (x y : String) :
    (joinWith ("\n") (A ++ F ++ [x, y, "-"])).data.getLast? = some '-' := by
  rw [show A ++ F ++ [x, y, "-"] = (A ++ F ++ [x, y]) ++ ["-"] by simp]
  exact joinWith_append_dash _

/-- C7 counterexample: a successful conversion's last character is the
terminating marker `-` itself, not a newline: the returned string carries no
trailing newline after the marker line. -/
theorem c7_counterexample :
    revolut_to_mt940 csvOne ("X") = .ok outOne ∧
    outOne.data.getLast? = some '-' ∧ outOne.data.getLast? ≠ some '\n' :=
  ⟨by with_unfolding_all rfl, by decide, by decide⟩

/-- C7 amended: every successful conversion returns the newline-separated
join of its lines, the last line is the single terminating marker `-`, and
the string ends with that marker directly, with no trailing newline or any
other content after it. -/
theorem c7_ends_with_marker (content iban out : String)
    (h : revolut_to_mt940 content iban = .ok out) :
    ∃ ls : List String, out = joinWith ("\n") ls ∧ ls ≠ [] ∧
      ls.getLast? = some ("-") ∧ out.data.getLast? = some '-' := by
  rw [revolut_to_mt940] at h
  cases hr : dictRows content with
  | nil => rw [hr] at h; exact absurd h (by simp [assemble])
  | cons r0 rs =>
    rw [hr] at h
    obtain ⟨oR, oD, cR, cD, aD, txss, _, _, _, _, _, _, hout⟩ :=
      assemble_ok_inv r0 rs iban out h
    refine ⟨_, hout, by simp, getLast?_three _ _ _ _ _, ?_⟩
    rw [hout]
    exact joinWith_three_dash _ _ _ _

/-- C7 witness: the amended law on the one-row sample. -/
theorem c7_witness :
    revolut_to_mt940 csvOne ("X") = .ok outOne ∧
    (∃ ls : List String, outOne = joinWith ("\n") ls ∧ ls ≠ [] ∧
      ls.getLast? = some ("-") ∧ outOne.data.getLast? = some '-') :=
  ⟨by with_unfolding_all rfl,
   c7_ends_with_marker csvOne ("X") outOne (by with_unfolding_all rfl)⟩

/-! ## C8: currency derivation -/

lemma statementCurrency_default (r0 fr : Record)
    (h1 : (r0.get ("Payment currency")).getD ("") = "")
    (h2 : (fr.get ("Payment currency")).getD ("") = "") :
    statementCurrency r0 fr = "EUR" := by
  have ha : pyOrO (r0.get ("Payment currency")) (fr.get ("Payment currency")) =
      fr.get ("Payment currency") := by
    cases hx : r0.get ("Payment currency") with
    | none => rfl
    | some s =>
      rw [hx] at h1
      simp at h1
      subst h1
      simp [pyOrO]
  simp only [statementCurrency]
  rw [ha]
  cases hy : fr.get ("Payment currency") with
  | none => rfl
  | some s =>
    rw [hy] at h2
    simp at h2
    subst h2
    rfl

/-- C8 counterexample: a payment-currency field holding a single space
yields the empty currency in a successfully produced statement: the currency
code in the balance lines is not three uppercase letters and is empty. -/
theorem c8_counterexample :
    revolut_to_mt940 csvSp ("X") = .ok outSp ∧
    (dictRows csvSp).map (fun r => statementCurrency r r) = [("")] :=
  ⟨by with_unfolding_all rfl, by with_unfolding_all rfl⟩

/-- C8 amended: the statement currency is derived by preferring the first
record's payment-currency field when truthy, else the last record's, else
the default `EUR`, stripped and upper-cased; when both fields are missing or
empty the result is the three-uppercase-letter default `EUR`, but a supplied
field value is used as-is after strip and upper-case and need not be three
letters nor non-empty. -/
theorem c8_currency_fallback (content iban out : String)
    (h : revolut_to_mt940 content iban = .ok out) :
    ∃ (r0 : Record) (rs : List Record) (ls : List String) (od : String),
      dictRows content = r0 :: rs ∧ out = joinWith ("\n") ls ∧
      ls.get? 3 = some (":60F:C" ++ od ++
        statementCurrency r0 ((r0 :: rs).getLast (List.cons_ne_nil r0 rs)) ++
        fmt_amount (parse_decimal
          (((r0 :: rs).getLast (List.cons_ne_nil r0 rs)).getD ("Balance") ("0")))) ∧
      ((r0.get ("Payment currency")).getD ("") = "" →
       (((r0 :: rs).getLast (List.cons_ne_nil r0 rs)).get
          ("Payment currency")).getD ("") = "" →
       statementCurrency r0 ((r0 :: rs).getLast (List.cons_ne_nil r0 rs)) = "EUR" ∧
       ("EUR" : String).length = 3 ∧ ∀ c ∈ ("EUR" : String).data, c.isUpper = true) := by
  rw [revolut_to_mt940] at h
  cases hr : dictRows content with
  | nil => rw [hr] at h; exact absurd h (by simp [assemble])
  | cons r0 rs =>
    rw [hr] at h
    obtain ⟨oR, oD, cR, cD, aD, txss, _, _, _, _, _, _, hout⟩ :=
      assemble_ok_inv r0 rs iban out h
    refine ⟨r0, rs, _, oD, rfl, hout, rfl, ?_⟩
    intro h1 h2
    exact ⟨statementCurrency_default _ _ h1 h2, rfl, by decide⟩

/-- C8 witness: the amended law on an input with no payment-currency column,
where the default `EUR` applies. -/
theorem c8_witness :
    revolut_to_mt940 csvDef ("X") = .ok outDef ∧
    (∃ (r0 : Record) (rs : List Record) (ls : List String) (od : String),
      dictRows csvDef = r0 :: rs ∧ outDef = joinWith ("\n") ls ∧
      ls.get? 3 = some (":60F:C" ++ od ++
        statementCurrency r0 ((r0 :: rs).getLast (List.cons_ne_nil r0 rs)) ++
        fmt_amount (parse_decimal
          (((r0 :: rs).getLast (List.cons_ne_nil r0 rs)).getD ("Balance") ("0")))) ∧
      ((r0.get ("Payment currency")).getD ("") = "" →
       (((r0 :: rs).getLast (List.cons_ne_nil r0 rs)).get
          ("Payment currency")).getD ("") = "" →
       statementCurrency r0 ((r0 :: rs).getLast (List.cons_ne_nil r0 rs)) = "EUR" ∧
       ("EUR" : String).length = 3 ∧ ∀ c ∈ ("EUR" : String).data, c.isUpper = true)) :=
  ⟨by with_unfolding_all rfl,
   c8_currency_fallback csvDef ("X") outDef (by with_unfolding_all rfl)⟩

/-! ## C9: account identifier normalization removes only spaces -/

/-- C9 counterexample: a tab character embedded in the account identifier is
whitespace but survives into the account line of a successfully produced
statement: only the space character is removed, not every kind of
whitespace. -/
theorem c9_counterexample :
    revolut_to_mt940 csvOne ("A B\tC") = .ok outTab ∧
    '\t' ∈ outTab.data ∧ Char.isWhitespace '\t' = true :=
  ⟨by with_unfolding_all rfl, by decide, by decide⟩

/-- C9 amended: the account header line contains the identifier with every
space character (U+0020) removed and all other characters, including other
whitespace, preserved unchanged in order. -/
theorem c9_space_only_normalization (content iban out : String)
    (h : revolut_to_mt940 content iban = .ok out) :
    ∃ ls : List String, out = joinWith ("\n") ls ∧
      ls.get? 1 = some (":25:/" ++ removeChar ' ' iban) ∧
      (removeChar ' ' iban).data = iban.data.filter (fun c => c ≠ ' ') ∧
      ' ' ∉ (removeChar ' ' iban).data := by
  rw [revolut_to_mt940] at h
  cases hr : dictRows content with
  | nil => rw [hr] at h; exact absurd h (by simp [assemble])
  | cons r0 rs =>
    rw [hr] at h
    obtain ⟨oR, oD, cR, cD, aD, txss, _, _, _, _, _, _, hout⟩ :=
      assemble_ok_inv r0 rs iban out h
    refine ⟨_, hout, rfl, rfl, ?_⟩
    intro hm
    simp only [removeChar] at hm
    simp at hm

/-- C9 witness: the amended law on the identifier `A B\tC`. -/
theorem c9_witness :
    revolut_to_mt940 csvOne ("A B\tC") = .ok outTab ∧
    (∃ ls : List String, outTab = joinWith ("\n") ls ∧
      ls.get? 1 = some (":25:/" ++ removeChar ' ' ("A B\tC")) ∧
      (removeChar ' ' ("A B\tC")).data = ("A B\tC").data.filter (fun c => c ≠ ' ') ∧
      ' ' ∉ (removeChar ' ' ("A B\tC")).data) :=
  ⟨by with_unfolding_all rfl,
   c9_space_only_normalization csvOne ("A B\tC") outTab
     (by with_unfolding_all rfl)⟩

/-! ## C10: the tertiary description sub-line and the beneficiary sub-line
share the `~38` tag -/

/-- C10: when the normalized description splits into more than two chunks
and the stripped beneficiary field is non-empty, the transaction block ends
with, in order, a `~38` line carrying the concatenation of the third and
later description chunks, a `~38` line carrying the beneficiary identifier
with spaces removed, and the two currency-symbol trailer lines — the two
`~38` lines carry the same tag and are not distinguishable by it. -/
theorem c10_shared_tag (openingRaw currency : String) (tx : Record)
    (ls : List String) (h : txLines openingRaw currency tx = .ok ls)
    (h2 : 2 < (split_text_chunks (txDescription tx) 35).length)
    (h3 : txBen tx ≠ ("")) :
    ∃ pre, ls = pre ++
      ["~38" ++ joinWith ("") ((split_text_chunks (txDescription tx) 35).drop 2),
       "~38" ++ removeChar ' ' (txBen tx),
       "~60" ++ symbolOf currency, "~63" ++ symbolOf currency] ∧
      ("~38" ++ joinWith ("")
        ((split_text_chunks (txDescription tx) 35).drop 2)).data.take 3 =
          ("~38" : String).data ∧
      ("~38" ++ removeChar ' ' (txBen tx)).data.take 3 = ("~38" : String).data := by
  simp only [txLines] at h
  obtain ⟨vd, hv, h⟩ := bind_ok_inv h
  obtain ⟨md, hm, h⟩ := bind_ok_inv h
  have hls : ls = ([":61:" ++ vd ++ md ++ (if txAmount tx < 0 then ("D") else ("C")) ++
      fmt_amount |txAmount tx| ++ "N" ++ txCode tx ++ "NONREF//" ++ txId tx,
      txCode tx ++ " 0", ":86:020~00" ++ txCode tx] ++
      (if txReference tx ≠ "" then ["~20" ++ txReference tx] else []) ++
      descLines tx ++ benLines tx ++
      ["~60" ++ symbolOf currency, "~63" ++ symbolOf currency]) := by
    simpa using h.symm
  rcases hchunks : split_text_chunks (txDescription tx) 35 with _ | ⟨c1, t1⟩
  · rw [hchunks] at h2; simp at h2
  · rcases t1 with _ | ⟨c2, t2⟩
    · rw [hchunks] at h2; simp at h2
    · rcases t2 with _ | ⟨c3, t3⟩
      · rw [hchunks] at h2; simp at h2
      · have hdesc : descLines tx = ["~32" ++ c1, "~33" ++ c2,
            "~38" ++ joinWith ("") (c3 :: t3)] := by
          simp only [descLines, hchunks]
        have hben : benLines tx = ["~38" ++ removeChar ' ' (txBen tx)] := by
          simp only [benLines, if_pos h3]
        have hdrop : (split_text_chunks (txDescription tx) 35).drop 2 = c3 :: t3 := by
          rw [hchunks]; rfl
        refine ⟨[":61:" ++ vd ++ md ++ (if txAmount tx < 0 then ("D") else ("C")) ++
          fmt_amount |txAmount tx| ++ "N" ++ txCode tx ++ "NONREF//" ++ txId tx,
          txCode tx ++ " 0", ":86:020~00" ++ txCode tx] ++
          (if txReference tx ≠ "" then ["~20" ++ txReference tx] else []) ++
          ["~32" ++ c1, "~33" ++ c2], ?_, rfl, rfl⟩
        rw [hls, hdesc, hben]
        simp [List.append_assoc]

/-- C10 witness: the shared-tag law on the record `recLong` with an
80-character description and a beneficiary IBAN. -/
theorem c10_witness :
    txLines ("2024-01-15") ("EUR") recLong = .ok outLong ∧
    2 < (split_text_chunks (txDescription recLong) 35).length ∧
    txBen recLong ≠ ("") ∧
    (∃ pre, outLong = pre ++
      ["~38" ++ joinWith ("") ((split_text_chunks (txDescription recLong) 35).drop 2),
       "~38" ++ removeChar ' ' (txBen recLong),
       "~60" ++ symbolOf ("EUR"), "~63" ++ symbolOf ("EUR")] ∧
      ("~38" ++ joinWith ("")
        ((split_text_chunks (txDescription recLong) 35).drop 2)).data.take 3 =
          ("~38" : String).data ∧
      ("~38" ++ removeChar ' ' (txBen recLong)).data.take 3 = ("~38" : String).data) :=
  ⟨by with_unfolding_all rfl, by with_unfolding_all decide,
   by with_unfolding_all decide,
   c10_shared_tag ("2024-01-15") ("EUR") recLong outLong
     (by with_unfolding_all rfl) (by with_unfolding_all decide)
     (by with_unfolding_all decide)⟩

end Mt940
